import Mathlib

/-!
Verification of the safe asynchronous state controller
(`useSafeDispatch` / `asyncReducer` / `useAsync` and its `run` operation).

The embedding mirrors the source:

* `AsyncState` is the reducer state `{status, data, error}`; JavaScript's
  `null`/`undefined` fields become `none`, and `status` is kept as a `String`
  because the source stores it as one (the construction-time override can put
  any string there).
* `AsyncAction` is the dispatched object `{type, data?, error?}`.
* `asyncReducer` returns `Except String _`: the `default` branch of the switch
  throws `Unhandled action type: ...`, modelled as `Except.error`.
* `Controller` pairs the `mountedRef` boolean (`React.useRef(false)`) with the
  current `AsyncState`; `safeDispatch` is the wrapped dispatcher returned by
  `useSafeDispatch`, which delegates to the raw dispatch only when the ref
  is `true`.
* `run` takes an optional awaitable.  An awaitable's only observable is its
  eventual settlement, so it is modelled as the `Settlement` it will deliver;
  `run`'s synchronous part dispatches `pending` when the awaitable is present
  and no-ops otherwise.  The registered continuations firing later, and the
  layout-effect mount/unmount flips, are the events of the trace semantics
  `step` / `runTrace`.
-/

/-- Reducer state of `useAsync`: `{status, data, error}`. -/
structure AsyncState (α ε : Type) where
  status : String
  data : Option α
  error : Option ε
deriving Repr, DecidableEq

/-- Dispatched action object `{type, data?, error?}`; a field that the source
omits at the dispatch site (e.g. `data` on a `pending` action) is `none`. -/
structure AsyncAction (α ε : Type) where
  type : String
  data : Option α
  error : Option ε
deriving Repr, DecidableEq

/-- The `asyncReducer` switch: `pending` / `resolved` / `rejected` each build a
fresh state ignoring the current one; any other `type` hits the `default`
branch, which throws `Unhandled action type: ...`. -/
def asyncReducer {α ε : Type} (state : AsyncState α ε) (action : AsyncAction α ε) :
    Except String (AsyncState α ε) :=
  if action.type = "pending" then
    Except.ok ⟨"pending", none, none⟩
  else if action.type = "resolved" then
    Except.ok ⟨"resolved", action.data, none⟩
  else if action.type = "rejected" then
    Except.ok ⟨"rejected", none, action.error⟩
  else
    Except.error ("Unhandled action type: " ++ action.type)

/-- A controller instance: the `mountedRef.current` boolean of
`useSafeDispatch` together with the current reducer state. -/
structure Controller (α ε : Type) where
  mounted : Bool
  state : AsyncState α ε
deriving Repr, DecidableEq

/-- The construction-time override passed to `useAsync(initialState)`: each
field that the caller supplies replaces the corresponding default via the
object spread `{status: 'idle', data: null, error: null, ...initialState}`. -/
structure InitOverride (α ε : Type) where
  status : Option String
  data : Option α
  error : Option ε
deriving Repr, DecidableEq

/-- Override supplying no fields (calling `useAsync()` with no argument). -/
def noOverride {α ε : Type} : InitOverride α ε := ⟨none, none, none⟩

/-- Spread semantics of `{status: 'idle', data: null, error: null,
...initialState}`: a supplied field wins, an absent field keeps its default. -/
def mkInitialState {α ε : Type} (ov : InitOverride α ε) : AsyncState α ε :=
  ⟨ov.status.getD ("idle"), ov.data, ov.error⟩

/-- A freshly constructed controller: `mountedRef` starts at `false`
(`React.useRef(false)`); the state is the spread of the default over the
override.  The layout effect that flips `mounted` to `true` runs strictly
after construction and is the `attach` event of the trace semantics. -/
def mkController {α ε : Type} (ov : InitOverride α ε) : Controller α ε :=
  ⟨false, mkInitialState ov⟩

/-- The raw dispatch applied to a controller: feed the action to
`asyncReducer` and store the result (propagating the reducer's throw). -/
def dispatchRaw {α ε : Type} (c : Controller α ε) (a : AsyncAction α ε) :
    Except String (Controller α ε) :=
  match asyncReducer c.state a with
  | Except.ok s => Except.ok ⟨c.mounted, s⟩
  | Except.error msg => Except.error msg

/-- The wrapped dispatcher returned by `useSafeDispatch`: it delegates to the
raw dispatch only when `mountedRef.current` is `true`, and silently does
nothing otherwise. -/
def safeDispatch {α ε : Type} (c : Controller α ε) (a : AsyncAction α ε) :
    Except String (Controller α ε) :=
  if c.mounted then dispatchRaw c a else Except.ok c

/-- How an awaitable eventually settles: with a value (possibly `undefined`,
hence `Option`) or with a reason. -/
inductive Settlement (α ε : Type) where
  | resolved (data : Option α)
  | rejected (error : Option ε)
deriving Repr, DecidableEq

/-- Synchronous part of `run(promise)`: absent awaitable means return
immediately; a present one means dispatch `{type: 'pending'}` through the safe
dispatcher (the two `then`-continuations fire later, as `settle` events). -/
def run {α ε : Type} (c : Controller α ε) (promise : Option (Settlement α ε)) :
    Except String (Controller α ε) :=
  match promise with
  | none => Except.ok c
  | some _ => safeDispatch c ⟨"pending", none, none⟩

/-- Events observable by one controller instance: the layout effect mounting
(`attach`) and its cleanup unmounting (`detach`), a `run` call with a present
awaitable (`runStart`, dispatching `pending`), a `run` call with an absent one
(`runAbsent`), and a previously registered continuation firing (`settle`). -/
inductive Event (α ε : Type) where
  | attach
  | detach
  | runStart
  | runAbsent
  | settle (r : Settlement α ε)
deriving Repr, DecidableEq

/-- Effect of one event on a controller.  Both `then`-continuations of `run`
dispatch through the safe dispatcher, exactly as in the source. -/
def step {α ε : Type} (c : Controller α ε) (e : Event α ε) :
    Except String (Controller α ε) :=
  match e with
  | Event.attach => Except.ok ⟨true, c.state⟩
  | Event.detach => Except.ok ⟨false, c.state⟩
  | Event.runStart => safeDispatch c ⟨"pending", none, none⟩
  | Event.runAbsent => Except.ok c
  | Event.settle (Settlement.resolved d) => safeDispatch c ⟨"resolved", d, none⟩
  | Event.settle (Settlement.rejected r) => safeDispatch c ⟨"rejected", none, r⟩

/-- Run a whole sequence of events, stopping at the first reducer throw. -/
def runTrace {α ε : Type} : Controller α ε → List (Event α ε) →
    Except String (Controller α ε)
  | c, [] => Except.ok c
  | c, e :: evs =>
    match step c e with
    | Except.ok c2 => runTrace c2 evs
    | Except.error msg => Except.error msg

/-- C2: the wrapped dispatcher produced by `useSafeDispatch` invokes the raw
dispatch with the given action exactly when the mounted flag is `true` at the
moment it is invoked; when the flag is `false` it is a silent no-op that
raises no error. -/
theorem c2_safe_dispatch_guard {α ε : Type} (c : Controller α ε) (a : AsyncAction α ε) :
    (c.mounted = true → safeDispatch c a = dispatchRaw c a) ∧
    (c.mounted = false → safeDispatch c a = Except.ok c) := by
  constructor <;> intro h <;> simp [safeDispatch, h]

/-- Witness for `c2_safe_dispatch_guard` at a mounted and an unmounted
controller. -/
theorem c2_safe_dispatch_guard_witness :
    safeDispatch (⟨true, "idle", none, none⟩ : Controller Nat String)
        ⟨"pending", none, none⟩ =
      dispatchRaw ⟨true, "idle", none, none⟩ ⟨"pending", none, none⟩ ∧
    safeDispatch (⟨false, "idle", none, none⟩ : Controller Nat String)
        ⟨"pending", none, none⟩ =
      Except.ok ⟨false, "idle", none, none⟩ :=
  ⟨(c2_safe_dispatch_guard ⟨true, "idle", none, none⟩ ⟨"pending", none, none⟩).1 rfl,
   (c2_safe_dispatch_guard ⟨false, "idle", none, none⟩ ⟨"pending", none, none⟩).2 rfl⟩

/-- C3: from any current state, a `pending` action yields
`{status: pending, data: null, error: null}`, a `resolved` action yields
`{status: resolved, data, error: null}` with the action's data, and a
`rejected` action yields `{status: rejected, data: null, error}` with the
action's error — no gating on the current status. -/
theorem c3_reducer_transitions {α ε : Type} (s : AsyncState α ε)
    (d : Option α) (r : Option ε) :
    asyncReducer s ⟨"pending", d, r⟩ = Except.ok ⟨"pending", none, none⟩ ∧
    asyncReducer s ⟨"resolved", d, r⟩ = Except.ok ⟨"resolved", d, none⟩ ∧
    asyncReducer s ⟨"rejected", d, r⟩ = Except.ok ⟨"rejected", none, r⟩ := by
  refine ⟨rfl, ?_, ?_⟩ <;> simp [asyncReducer]

/-- C6: `run` never fails synchronously: with an absent awaitable it returns
the controller unchanged, with a present one it only dispatches `pending`
through the safe dispatcher; its result is always `ok`; and an operation
failure is delivered as a `rejected` dispatch (through the safe dispatcher),
which itself never throws. -/
theorem c6_run_never_throws {α ε : Type} (c : Controller α ε) :
    run c none = Except.ok c ∧
    (∀ w : Settlement α ε, run c (some w) = safeDispatch c ⟨"pending", none, none⟩) ∧
    (∀ p : Option (Settlement α ε), ∃ c2, run c p = Except.ok c2) ∧
    (∀ r : Option ε,
      step c (Event.settle (Settlement.rejected r)) =
        safeDispatch c ⟨"rejected", none, r⟩ ∧
      ∃ c2, safeDispatch c ⟨"rejected", none, r⟩ = Except.ok c2) := by
  obtain ⟨m, s⟩ := c
  refine ⟨rfl, fun w => rfl, ?_, ?_⟩
  · intro p
    cases p with
    | none => exact ⟨⟨m, s⟩, rfl⟩
    | some w =>
      cases m with
      | false => exact ⟨⟨false, s⟩, rfl⟩
      | true => exact ⟨⟨true, "pending", none, none⟩, rfl⟩
  · intro r
    refine ⟨rfl, ?_⟩
    cases m with
    | false => exact ⟨⟨false, s⟩, rfl⟩
    | true => exact ⟨⟨true, "rejected", none, r⟩, rfl⟩

/-- C7: calling `run` with an absent awaitable leaves the controller (state
included) unchanged and raises no error. -/
theorem c7_run_absent_noop {α ε : Type} (c : Controller α ε) :
    run c none = Except.ok c := rfl

/-- C8: with no override the freshly constructed state is
`{status: idle, data: null, error: null}`; an override replaces exactly the
supplied fields (so a controller can start directly in `pending`). -/
theorem c8_initial_state {α ε : Type} (os : String) (od : Option α) (oe : Option ε) :
    (mkController (noOverride : InitOverride α ε)).state = ⟨"idle", none, none⟩ ∧
    (mkController (⟨some os, none, none⟩ : InitOverride α ε)).state = ⟨os, none, none⟩ ∧
    (mkController (⟨none, od, oe⟩ : InitOverride α ε)).state = ⟨"idle", od, oe⟩ :=
  ⟨rfl, rfl, rfl⟩

/-- C9: an action whose `type` is none of `pending` / `resolved` / `rejected`
makes the reducer throw `Unhandled action type: ...` naming that type, rather
than returning a state. -/
theorem c9_unknown_action_throws {α ε : Type} (s : AsyncState α ε)
    (a : AsyncAction α ε) (h1 : a.type ≠ "pending") (h2 : a.type ≠ "resolved")
    (h3 : a.type ≠ "rejected") :
    asyncReducer s a = Except.error ("Unhandled action type: " ++ a.type) := by
  simp [asyncReducer, h1, h2, h3]

/-- Witness for `c9_unknown_action_throws` at the action type `bogus`. -/
theorem c9_unknown_action_throws_witness :
    asyncReducer (⟨"idle", none, none⟩ : AsyncState Nat String)
        ⟨"bogus", none, none⟩ =
      Except.error ("Unhandled action type: bogus") :=
  c9_unknown_action_throws ⟨"idle", none, none⟩ ⟨"bogus", none, none⟩
    (by decide) (by decide) (by decide)

/-- C10: the mounted flag starts `false` at construction, a dispatch through
the safe dispatcher before attachment is a silent no-op leaving the state
unchanged, and the only event that turns the flag `true` is `attach`. -/
theorem c10_unmounted_until_attach {α ε : Type} (ov : InitOverride α ε)
    (a : AsyncAction α ε) (c c2 : Controller α ε) (e : Event α ε) :
    (mkController ov).mounted = false ∧
    safeDispatch (mkController ov) a = Except.ok (mkController ov) ∧
    (step c e = Except.ok c2 → c2.mounted = true →
      c.mounted = true ∨ e = Event.attach) := by
  refine ⟨rfl, rfl, ?_⟩
  intro hstep htrue
  obtain ⟨m, s⟩ := c
  cases e with
  | attach => exact Or.inr rfl
  | detach =>
    injection hstep with h
    rw [← h] at htrue
    exact absurd htrue (by simp)
  | runAbsent =>
    injection hstep with h
    rw [← h] at htrue
    exact Or.inl htrue
  | runStart =>
    cases m with
    | false =>
      injection hstep with h
      rw [← h] at htrue
      exact absurd htrue (by simp)
    | true => exact Or.inl rfl
  | settle r =>
    cases m with
    | false =>
      cases r with
      | resolved d =>
        injection hstep with h
        rw [← h] at htrue
        exact absurd htrue (by simp)
      | rejected er =>
        injection hstep with h
        rw [← h] at htrue
        exact absurd htrue (by simp)
    | true => exact Or.inl rfl

/-- Witness for `c10_unmounted_until_attach`: the `attach` event itself. -/
theorem c10_unmounted_until_attach_witness :
    (mkController (noOverride : InitOverride Nat String)).mounted = true ∨
      (Event.attach : Event Nat String) = Event.attach :=
  (c10_unmounted_until_attach noOverride ⟨"pending", none, none⟩
      (mkController noOverride) ⟨true, "idle", none, none⟩ Event.attach).2.2 rfl rfl

/-- Running an appended trace is running the two halves in sequence. -/
theorem runTrace_append {α ε : Type} (xs ys : List (Event α ε)) (c : Controller α ε) :
    runTrace c (xs ++ ys) =
      match runTrace c xs with
      | Except.ok c2 => runTrace c2 ys
      | Except.error msg => Except.error msg := by
  induction xs generalizing c with
  | nil => rfl
  | cons e xs ih =>
    simp only [List.cons_append, runTrace]
    cases step c e with
    | ok c2 => exact ih c2
    | error msg => rfl

/-- Once the mounted flag is `false`, a stretch of events containing no
`attach` leaves the controller untouched and throws nothing: every dispatch
in it is suppressed by the safe dispatcher. -/
theorem runTrace_unmounted_frozen {α ε : Type} (evs : List (Event α ε))
    (c : Controller α ε) (hm : c.mounted = false) (hno : Event.attach ∉ evs) :
    runTrace c evs = Except.ok c := by
  induction evs generalizing c with
  | nil => rfl
  | cons e evs ih =>
    obtain ⟨m, s⟩ := c
    subst hm
    have he : e ≠ Event.attach := fun h => hno (h ▸ List.mem_cons_self e evs)
    have hevs : Event.attach ∉ evs := fun h => hno (List.mem_cons_of_mem e h)
    cases e with
    | attach => exact absurd rfl he
    | detach => exact ih ⟨false, s⟩ rfl hevs
    | runStart => exact ih ⟨false, s⟩ rfl hevs
    | runAbsent => exact ih ⟨false, s⟩ rfl hevs
    | settle r =>
      cases r with
      | resolved d => exact ih ⟨false, s⟩ rfl hevs
      | rejected er => exact ih ⟨false, s⟩ rfl hevs

/-- A trace ending in `detach` that completes leaves the flag `false`. -/
theorem runTrace_detach_unmounts {α ε : Type} (xs : List (Event α ε))
    (c c2 : Controller α ε)
    (h : runTrace c (xs ++ [Event.detach]) = Except.ok c2) : c2.mounted = false := by
  rw [runTrace_append] at h
  cases hx : runTrace c xs with
  | error msg => rw [hx] at h; exact Except.noConfusion h
  | ok c3 =>
    rw [hx] at h
    have h2 : (⟨false, c3.state⟩ : Controller α ε) = c2 := by
      exact Except.ok.inj h
    rw [← h2]

/-- C1: if the controller is detached before an in-flight operation settles,
the stored state after the settlements is identical to the state at the
moment of detachment.  Since the layout effect attaches an instance only
once, no `attach` follows the `detach` in that instance's trace, and every
dispatch after the `detach` is permanently suppressed. -/
theorem c1_detach_suppresses {α ε : Type} (c : Controller α ε)
    (pre post : List (Event α ε)) (hno : Event.attach ∉ post) :
    runTrace c (pre ++ Event.detach :: post) =
      runTrace c (pre ++ [Event.detach]) := by
  have hsplit : pre ++ Event.detach :: post =
      (pre ++ [Event.detach]) ++ post := by simp
  rw [hsplit, runTrace_append]
  cases hx : runTrace c (pre ++ [Event.detach]) with
  | error msg => rfl
  | ok c2 =>
    exact runTrace_unmounted_frozen post c2
      (runTrace_detach_unmounts pre c c2 hx) hno

/-- Witness for `c1_detach_suppresses`: a pokemon-style scenario — mount,
start a request, unmount, then the request resolves; the late settlement is
dropped. -/
theorem c1_detach_suppresses_witness :
    runTrace (mkController (noOverride : InitOverride Nat String))
        ([Event.attach, Event.runStart] ++ Event.detach ::
          [Event.settle (Settlement.resolved (some 5))]) =
      runTrace (mkController noOverride)
        ([Event.attach, Event.runStart] ++ [Event.detach]) :=
  c1_detach_suppresses (mkController noOverride) [Event.attach, Event.runStart]
    [Event.settle (Settlement.resolved (some 5))] (by decide)

/-- C5: the reducer's output is independent of the state it starts from, so
after two transitions in sequence the result is what the second action alone
dictates; at the trace level, two overlapping `run` calls whose settlements
arrive with the first call's result last end exactly as a single `run`
settled by that result. -/
theorem c5_last_settlement_wins {α ε : Type} (s s1 : AsyncState α ε)
    (a1 a2 : AsyncAction α ε) (c : Controller α ε) (r1 r2 : Settlement α ε) :
    (asyncReducer s a1 = Except.ok s1 → asyncReducer s1 a2 = asyncReducer s a2) ∧
    (c.mounted = true →
      runTrace c [Event.runStart, Event.runStart,
          Event.settle r2, Event.settle r1] =
        runTrace c [Event.runStart, Event.settle r1]) := by
  constructor
  · intro _
    rfl
  · intro hm
    obtain ⟨m, st⟩ := c
    subst hm
    cases r1 <;> cases r2 <;> rfl

/-- Witness for `c5_last_settlement_wins`: a slow first request resolving 7
after a fast second one rejected; the stored state is the first's result. -/
theorem c5_last_settlement_wins_witness :
    asyncReducer (⟨"pending", none, none⟩ : AsyncState Nat String)
        ⟨"resolved", some 7, none⟩ =
      asyncReducer (⟨"idle", none, none⟩ : AsyncState Nat String)
        ⟨"resolved", some 7, none⟩ ∧
    runTrace (⟨true, "idle", none, none⟩ : Controller Nat String)
        [Event.runStart, Event.runStart,
          Event.settle (Settlement.rejected (some ("late loss"))),
          Event.settle (Settlement.resolved (some 7))] =
      runTrace (⟨true, "idle", none, none⟩ : Controller Nat String)
        [Event.runStart, Event.settle (Settlement.resolved (some 7))] :=
  ⟨(c5_last_settlement_wins ⟨"idle", none, none⟩ ⟨"pending", none, none⟩
      ⟨"pending", none, none⟩ ⟨"resolved", some 7, none⟩
      ⟨true, "idle", none, none⟩ (Settlement.resolved (some 7))
      (Settlement.rejected (some ("late loss")))).1 rfl,
   (c5_last_settlement_wins ⟨"idle", none, none⟩ ⟨"pending", none, none⟩
      ⟨"pending", none, none⟩ ⟨"resolved", some 7, none⟩
      ⟨true, "idle", none, none⟩ (Settlement.resolved (some 7))
      (Settlement.rejected (some ("late loss")))).2 rfl⟩

/-- Formalisation of the claimed state invariant: both fields null in `idle`
and `pending`; `data` non-null only — and, per the claim, exactly — when the
status is `resolved`; `error` non-null only and exactly when `rejected`. -/
def StateInvariant {α ε : Type} (s : AsyncState α ε) : Prop :=
  ((s.status = "idle" ∨ s.status = "pending") → s.data = none ∧ s.error = none) ∧
  (s.data ≠ none → s.status = "resolved") ∧
  (s.error ≠ none → s.status = "rejected") ∧
  (s.status = "resolved" → s.data ≠ none ∧ s.error = none) ∧
  (s.status = "rejected" → s.error ≠ none ∧ s.data = none)

/-- The idle state with null fields satisfies the invariant. -/
theorem invariantIdleState {α ε : Type} :
    StateInvariant (⟨"idle", none, none⟩ : AsyncState α ε) := by
  refine ⟨fun _ => ⟨rfl, rfl⟩, fun h => absurd rfl h, fun h => absurd rfl h,
    fun h => ?_, fun h => ?_⟩
  · simp at h
  · simp at h

/-- The pending state with null fields satisfies the invariant. -/
theorem invariantPendingState {α ε : Type} :
    StateInvariant (⟨"pending", none, none⟩ : AsyncState α ε) := by
  refine ⟨fun _ => ⟨rfl, rfl⟩, fun h => absurd rfl h, fun h => absurd rfl h,
    fun h => ?_, fun h => ?_⟩
  · simp at h
  · simp at h

/-- A resolved state with a present value satisfies the invariant. -/
theorem invariantResolvedState {α ε : Type} (d : α) :
    StateInvariant (⟨"resolved", some d, none⟩ : AsyncState α ε) := by
  refine ⟨fun h => ?_, fun _ => rfl, fun h => absurd rfl h,
    fun _ => ⟨Option.some_ne_none d, rfl⟩, fun h => ?_⟩
  · rcases h with h | h <;> simp at h
  · simp at h

/-- A rejected state with a present reason satisfies the invariant. -/
theorem invariantRejectedState {α ε : Type} (r : ε) :
    StateInvariant (⟨"rejected", none, some r⟩ : AsyncState α ε) := by
  refine ⟨fun h => ?_, fun h => absurd rfl h, fun _ => rfl,
    fun h => ?_, fun _ => ⟨Option.some_ne_none r, rfl⟩⟩
  · rcases h with h | h <;> simp at h
  · simp at h

/-- C4 counterexample: the claim fails on the code.  A controller built with
the documented status-only override `{status: 'resolved'}` holds
`{status: resolved, data: null, error: null}` as its initial state, and a
no-override controller driven by an awaitable that resolves with `undefined`
reaches the same state by a transition; in both, no field is non-null even
though the status is `resolved`. -/
theorem c4_invariant_counterexample :
    ¬ StateInvariant
        (mkController
          (⟨some ("resolved"), none, none⟩ : InitOverride Nat String)).state ∧
    runTrace (mkController (noOverride : InitOverride Nat String))
        [Event.attach, Event.runStart, Event.settle (Settlement.resolved none)] =
      Except.ok ⟨true, "resolved", none, none⟩ ∧
    ¬ StateInvariant (⟨"resolved", none, none⟩ : AsyncState Nat String) := by
  refine ⟨?_, rfl, ?_⟩
  all_goals intro h; exact (h.2.2.2.1 rfl).1 rfl

/-- An event whose settlement, if any, carries a present payload: the
awaitable neither resolves with `undefined` nor rejects with `undefined`. -/
def goodEvent {α ε : Type} : Event α ε → Bool
  | Event.settle (Settlement.resolved d) => d.isSome
  | Event.settle (Settlement.rejected r) => r.isSome
  | _ => true

/-- One step with a present-payload event preserves the invariant. -/
theorem stepPreservesInvariant {α ε : Type} (c c2 : Controller α ε)
    (e : Event α ε) (hinv : StateInvariant c.state) (hg : goodEvent e = true)
    (h : step c e = Except.ok c2) : StateInvariant c2.state := by
  obtain ⟨m, s⟩ := c
  cases e with
  | attach => rw [← Except.ok.inj h]; exact hinv
  | detach => rw [← Except.ok.inj h]; exact hinv
  | runAbsent => rw [← Except.ok.inj h]; exact hinv
  | runStart =>
    cases m with
    | false => rw [← Except.ok.inj h]; exact hinv
    | true => rw [← Except.ok.inj h]; exact invariantPendingState
  | settle r =>
    cases r with
    | resolved d =>
      obtain ⟨v, rfl⟩ := Option.isSome_iff_exists.mp hg
      cases m with
      | false => rw [← Except.ok.inj h]; exact hinv
      | true => rw [← Except.ok.inj h]; exact invariantResolvedState v
    | rejected er =>
      obtain ⟨v, rfl⟩ := Option.isSome_iff_exists.mp hg
      cases m with
      | false => rw [← Except.ok.inj h]; exact hinv
      | true => rw [← Except.ok.inj h]; exact invariantRejectedState v

/-- A completed trace of present-payload events preserves the invariant. -/
theorem runTracePreservesInvariant {α ε : Type} (evs : List (Event α ε))
    (c c2 : Controller α ε) (hinv : StateInvariant c.state)
    (hg : ∀ e ∈ evs, goodEvent e = true)
    (h : runTrace c evs = Except.ok c2) : StateInvariant c2.state := by
  induction evs generalizing c with
  | nil => rw [← Except.ok.inj h]; exact hinv
  | cons e evs ih =>
    rw [runTrace] at h
    cases hs : step c e with
    | error msg => rw [hs] at h; exact Except.noConfusion h
    | ok c3 =>
      rw [hs] at h
      exact ih c3
        (stepPreservesInvariant c c3 e hinv (hg e (List.mem_cons_self e evs)) hs)
        (fun x hx => hg x (List.mem_cons_of_mem e hx)) h

/-- C4 amended: restricted to what the counterexample forces — a controller
constructed without overrides and settlements carrying present payloads —
every state the controller holds satisfies the invariant: both fields null in
`idle`/`pending`, `data` non-null exactly in `resolved`, `error` non-null
exactly in `rejected`. -/
theorem c4_invariant_amended {α ε : Type} (evs : List (Event α ε))
    (c2 : Controller α ε) (hg : ∀ e ∈ evs, goodEvent e = true)
    (h : runTrace (mkController (noOverride : InitOverride α ε)) evs =
      Except.ok c2) :
    StateInvariant c2.state :=
  runTracePreservesInvariant evs (mkController noOverride) c2
    invariantIdleState hg h

/-- Witness for `c4_invariant_amended`: mount, run, resolve with 3. -/
theorem c4_invariant_amended_witness :
    StateInvariant ((⟨true, "resolved", some 3, none⟩ : Controller Nat String)).state :=
  c4_invariant_amended
    [Event.attach, Event.runStart, Event.settle (Settlement.resolved (some 3))]
    ⟨true, "resolved", some 3, none⟩ (by decide) rfl
